import Mathlib

/-!
Shallow embedding of the browser chat client in `src/static/script.js`
(class `CementGPT`).

DOM state that the script reads or writes is modelled explicitly: the list
of rendered elements in the messages container, the text of the message
input field, the disabled flag of the input controls, and the status
indicator.  Each asynchronous handler awaits exactly one request, so it is
modelled as a pure function from the client state and the outcome of that
request to the new state together with the list of externally visible
actions it performs (requests issued, toasts shown, DOM operations), in
program order.
-/

/-- Elements rendered inside the messages container: ordinary messages
(`addMessage`) and the typing indicator (`addTypingIndicator`, whose div
also carries the `message` CSS class and a unique DOM id). -/
inductive Rendered
  | msg (role : String) (content : String) (isError : Bool)
  | typing (id : Nat)
  deriving DecidableEq

/-- Entries of `this.conversationHistory`.  Entries pushed by `sendMessage`
carry a timestamp; entries hydrated from `/api/conversation-history` do
not. -/
structure HistEntry where
  role : String
  message : String
  timestamp : Option String
  deriving DecidableEq

/-- CSS class put on the status indicator by `updateStatusIndicator`. -/
inductive SysIndicator
  | checking
  | online
  | offline
  deriving DecidableEq

/-- Toast kinds accepted by `showToast`. -/
inductive ToastKind
  | success
  | error
  | warning
  | info
  deriving DecidableEq

/-- The mutable state of the client: the `CementGPT` fields `isTyping` and
`conversationHistory`, plus the DOM state the script manipulates. -/
structure ClientState where
  isTyping : Bool
  conversationHistory : List HistEntry
  transcript : List Rendered
  inputValue : String
  indicator : SysIndicator
  indicatorMessage : String
  inputDisabled : Bool
  deriving DecidableEq

/-- Externally visible actions a handler performs, in program order. -/
inductive UAct
  | clearInput
  | appendMessage (role : String) (content : String) (isError : Bool)
  | setInFlight (b : Bool)
  | showTypingIndicator (id : Nat)
  | removeTypingIndicatorAct (id : Nat)
  | chatRequest (message : String)
  | toast (kind : ToastKind) (message : String)
  | pushHistory (entries : List HistEntry)
  deriving DecidableEq

/-- JavaScript `String.prototype.trim`: strip leading and trailing
whitespace. -/
def jsTrim (s : String) : String :=
  String.mk (((s.data.dropWhile Char.isWhitespace).reverse.dropWhile Char.isWhitespace).reverse)

/-- The numeric part of the DOM id of a typing-indicator div (`0` for
ordinary messages, which carry no id the script ever looks up). -/
def tid : Rendered → Nat
  | .typing i => i
  | .msg _ _ _ => 0

/-- Whether a rendered element is the typing indicator. -/
def isTypingElem : Rendered → Bool
  | .typing _ => true
  | .msg _ _ _ => false

/-- A DOM id distinct from the id of every element currently in the
container, standing for the fresh `typing-${Date.now()}` id that
`addTypingIndicator` generates. -/
def freshTypingId (l : List Rendered) : Nat :=
  l.foldr (fun e m => max (tid e) m) 0 + 1

/-- `removeTypingIndicator(typingId)`: remove the element with the given
DOM id from the container, if present. -/
def removeTypingElem (i : Nat) (l : List Rendered) : List Rendered :=
  l.filter (fun e => !(isTypingElem e && tid e == i))

/-- Body of a `/api/chat` response, with the fields the script reads. -/
structure ChatData where
  status : String
  response : String
  message : String
  deriving DecidableEq

/-- Outcome of the awaited `/api/chat` exchange: a parsed JSON body, or a
thrown transport error (`fetch` rejection or JSON parse failure). -/
inductive ChatOutcome
  | ok (data : ChatData)
  | netError
  deriving DecidableEq

/-- `sendMessage` (src/static/script.js lines 88-137), settled.  `now` is
the ISO timestamp taken for the history entries.  The guard, the input
clear, the appends, the typing indicator, the request, the response
branches and the `finally` clause follow the source in order. -/
def sendMessage (st : ClientState) (now : String) (o : ChatOutcome) :
    ClientState × List UAct :=
  let message := jsTrim st.inputValue
  if message = "" ∨ st.isTyping = true then (st, [])
  else
    let st1 := { st with inputValue := "" }
    let st2 := { st1 with transcript := st1.transcript ++ [Rendered.msg "user" message false] }
    let st3 := { st2 with isTyping := true }
    let typingId := freshTypingId st3.transcript
    let st4 := { st3 with transcript := st3.transcript ++ [Rendered.typing typingId] }
    let pre : List UAct :=
      [UAct.clearInput, UAct.appendMessage "user" message false,
       UAct.setInFlight true, UAct.showTypingIndicator typingId,
       UAct.chatRequest message]
    match o with
    | ChatOutcome.ok data =>
      let st5 := { st4 with transcript := removeTypingElem typingId st4.transcript }
      if data.status = "success" then
        let newEntries : List HistEntry :=
          [⟨"user", message, some now⟩, ⟨"agent", data.response, some now⟩]
        let st6 := { st5 with
          transcript := st5.transcript ++ [Rendered.msg "agent" data.response false]
          conversationHistory := st5.conversationHistory ++ newEntries
          isTyping := false }
        (st6, pre ++
          [UAct.removeTypingIndicatorAct typingId,
           UAct.appendMessage "agent" data.response false,
           UAct.pushHistory newEntries,
           UAct.setInFlight false])
      else
        let errText := "Error: " ++ data.message
        let st6 := { st5 with
          transcript := st5.transcript ++ [Rendered.msg "agent" errText true]
          isTyping := false }
        (st6, pre ++
          [UAct.removeTypingIndicatorAct typingId,
           UAct.appendMessage "agent" errText true,
           UAct.toast ToastKind.error data.message,
           UAct.setInFlight false])
    | ChatOutcome.netError =>
      let st5 := { st4 with transcript := removeTypingElem typingId st4.transcript }
      let errText := "Sorry, I encountered an error processing your request. Please try again."
      let st6 := { st5 with
        transcript := st5.transcript ++ [Rendered.msg "agent" errText true]
        isTyping := false }
      (st6, pre ++
        [UAct.removeTypingIndicatorAct typingId,
         UAct.appendMessage "agent" errText true,
         UAct.toast ToastKind.error "Failed to send message",
         UAct.setInFlight false])

/-- The terminal agent-side message `sendMessage` renders for a given
outcome: the reply on success, an error-flagged message otherwise. -/
def agentReply : ChatOutcome → Rendered
  | .ok d =>
    if d.status = "success" then Rendered.msg "agent" d.response false
    else Rendered.msg "agent" ("Error: " ++ d.message) true
  | .netError =>
    Rendered.msg "agent" "Sorry, I encountered an error processing your request. Please try again." true

/-- Entries `sendMessage` pushes onto `conversationHistory` for a given
outcome (both turns on success, nothing otherwise). -/
def historyDelta (m now : String) : ChatOutcome → List HistEntry
  | .ok d =>
    if d.status = "success" then [⟨"user", m, some now⟩, ⟨"agent", d.response, some now⟩]
    else []
  | .netError => []

/-- The chat requests among a list of actions. -/
def issuedRequests (tr : List UAct) : List String :=
  tr.filterMap (fun a => match a with | .chatRequest m => some m | _ => none)

/-- A concrete state with a prior send outstanding. -/
def busySt : ClientState :=
  { isTyping := true
    conversationHistory := []
    transcript := [Rendered.msg "agent" "welcome" false]
    inputValue := "hi"
    indicator := SysIndicator.online
    indicatorMessage := "System Ready"
    inputDisabled := false }

/-- A concrete idle state with pending input `"hi"`. -/
def readySt : ClientState :=
  { isTyping := false
    conversationHistory := []
    transcript := [Rendered.msg "agent" "welcome" false]
    inputValue := "hi"
    indicator := SysIndicator.online
    indicatorMessage := "System Ready"
    inputDisabled := false }

/-- Number of `removeTypingIndicator` calls in a trace. -/
def countRemoveTyping (tr : List UAct) : Nat :=
  tr.countP (fun a => match a with | .removeTypingIndicatorAct _ => true | _ => false)

/-- Number of times a trace clears the in-flight flag. -/
def countFlagClear (tr : List UAct) : Nat :=
  tr.countP (fun a => match a with | .setInFlight false => true | _ => false)

/-- Body of a `/api/status` response; absent fields model `undefined`. -/
structure StatusData where
  rag_available : Option Bool
  vertex_ai_initialized : Option Bool
  message : Option String
  deriving DecidableEq

/-- Outcome of the awaited `/api/status` exchange. -/
inductive StatusOutcome
  | ok (data : StatusData)
  | netError
  deriving DecidableEq

/-- JavaScript truthiness of a possibly-missing boolean field. -/
def truthyB : Option Bool → Bool
  | some b => b
  | none => false

/-- JavaScript `a || d` on a possibly-missing string: the default is used
when the field is absent or the empty string (both falsy). -/
def jsOrString : Option String → String → String
  | some s, d => if s = "" then d else s
  | none, d => d

/-- `checkSystemStatus` (src/static/script.js lines 43-62), settled: on a
body with both readiness flags truthy it marks the indicator online and
enables chat (`enableChat`); otherwise, and on a thrown error, it marks the
indicator offline, disables chat (`disableChat`) and shows an error
toast. -/
def checkSystemStatus (st : ClientState) (o : StatusOutcome) : ClientState × List UAct :=
  match o with
  | .ok d =>
    if truthyB d.rag_available && truthyB d.vertex_ai_initialized then
      ({ st with
          indicator := SysIndicator.online
          indicatorMessage := "System Ready"
          inputDisabled := false }, [])
    else
      ({ st with
          indicator := SysIndicator.offline
          indicatorMessage := "System Unavailable"
          inputDisabled := true },
       [UAct.toast ToastKind.error (jsOrString d.message "System is not ready")])
  | .netError =>
    ({ st with
        indicator := SysIndicator.offline
        indicatorMessage := "Connection Failed"
        inputDisabled := true },
     [UAct.toast ToastKind.error "Failed to connect to server"])

/-- Whether a status outcome reports full readiness. -/
def statusGood : StatusOutcome → Bool
  | .ok d => truthyB d.rag_available && truthyB d.vertex_ai_initialized
  | .netError => false

/-- The error-toast text `checkSystemStatus` shows on a failing outcome. -/
def statusFailMessage : StatusOutcome → String
  | .ok d => jsOrString d.message "System is not ready"
  | .netError => "Failed to connect to server"

/-- Entry points that reach `sendMessage`: the Enter keypress handler and
the send-button click handler (both attached to controls that
`disableChat` disables, so they cannot fire while the controls are
disabled), and the global `sendSuggestion` helper, which writes the
suggestion into the input field and calls `sendMessage` directly. -/
inductive Trigger
  | pressEnter
  | clickSend
  | suggestion (m : String)
  deriving DecidableEq

/-- Dispatch of an entry point: `none` when the DOM event cannot fire. -/
def triggerSend (st : ClientState) (t : Trigger) (now : String) (o : ChatOutcome) :
    Option (ClientState × List UAct) :=
  match t with
  | .pressEnter => if st.inputDisabled = true then none else some (sendMessage st now o)
  | .clickSend => if st.inputDisabled = true then none else some (sendMessage st now o)
  | .suggestion m => some (sendMessage { st with inputValue := m } now o)

/-- Requests issued by a dispatched (or impossible) entry point. -/
def issuedOpt : Option (ClientState × List UAct) → List String
  | none => []
  | some r => issuedRequests r.2

/-- A state with chat disabled and a send outstanding. -/
def offBusySt : ClientState := { busySt with inputDisabled := true }

/-- Body of a `/api/clear-conversation` response. -/
structure ClearData where
  status : String
  deriving DecidableEq

/-- Outcome of the awaited `/api/clear-conversation` exchange. -/
inductive ClearOutcome
  | ok (data : ClearData)
  | netError
  deriving DecidableEq

/-- `clearConversation` (src/static/script.js lines 230-262), settled:
without confirmation it returns immediately; with confirmation and a
`"success"` body it removes every element of the messages container except
the first, empties `conversationHistory` and shows a success toast; with a
non-success body it does nothing; on a thrown error it shows an error
toast. -/
def clearConversation (st : ClientState) (confirmed : Bool) (o : ClearOutcome) :
    ClientState × List UAct :=
  if confirmed = false then (st, [])
  else
    match o with
    | .ok d =>
      if d.status = "success" then
        ({ st with transcript := st.transcript.take 1, conversationHistory := [] },
         [UAct.toast ToastKind.success "Conversation cleared"])
      else (st, [])
    | .netError => (st, [UAct.toast ToastKind.error "Failed to clear conversation"])

/-- Body of a `/api/conversation-history` response. -/
structure HistoryData where
  status : String
  history : List HistEntry
  deriving DecidableEq

/-- Outcome of the awaited `/api/conversation-history` exchange. -/
inductive LoadOutcome
  | ok (data : HistoryData)
  | netError
  deriving DecidableEq

/-- `loadConversationHistory` (src/static/script.js lines 264-279),
settled: only a `"success"` body with a non-empty history replaces
`conversationHistory` and renders its entries; every other outcome,
including a thrown error, leaves the client untouched and shows nothing. -/
def loadConversationHistory (st : ClientState) (o : LoadOutcome) :
    ClientState × List UAct :=
  match o with
  | .ok d =>
    if d.status = "success" ∧ 0 < d.history.length then
      ({ st with
          conversationHistory := d.history
          transcript := st.transcript ++
            d.history.map (fun e => Rendered.msg e.role e.message false) }, [])
    else (st, [])
  | .netError => (st, [])

/-- The `setTimeout` delay used by `showToast` (5000 ms). -/
def toastDelay : Nat := 5000

/-- The latest element of `xs` that is at or before time `t`. -/
def latestLE (xs : List Nat) (t : Nat) : Option Nat :=
  (xs.filter (fun x => decide (x ≤ t))).foldl
    (fun acc x => match acc with | none => some x | some m => some (max m x)) none

/-- Visibility of the toast element at time `t`, given the times of the
`showToast` calls (src/static/script.js lines 403-427).  The `show` class
is present iff the latest class operation at or before `t` was an add:
`showToast` adds the class at each call and schedules a removal
`toastDelay` later, and a pending removal is never cancelled when a new
toast is shown. -/
def toastVisibleAt (shows : List Nat) (t : Nat) : Bool :=
  match latestLE shows t, latestLE (shows.map (fun s => s + toastDelay)) t with
  | none, _ => false
  | some _, none => true
  | some s, some f => decide (f < s)

/-- Helper for the lazy groups of the `formatMessage` span regexes
(`/\*\*(.*?)\*\*/g`, `/\*(.*?)\*/g` and the backtick pattern): scan for
the closing delimiter `d`, collecting the shortest span, which may not
contain a newline (`.` does not match newlines). -/
def findClose (d : List Char) : List Char → Option (List Char × List Char)
  | [] => none
  | c :: rest =>
    if d.isPrefixOf (c :: rest) then some ([], (c :: rest).drop d.length)
    else if c = '\n' then none
    else
      match findClose d rest with
      | some (sp, r) => some (c :: sp, r)
      | none => none

/-- Global replacement of `d(.*?)d` by the span wrapped in `opn`/`cls`,
scanning left to right and resuming after each match, as the JavaScript
regex engine does; the fuel argument is instantiated with the input
length, which bounds the number of scanning steps. -/
def replDelim (d opn cls : List Char) : Nat → List Char → List Char
  | _, [] => []
  | 0, s => s
  | fuel + 1, c :: rest =>
    if d.isPrefixOf (c :: rest) then
      match findClose d ((c :: rest).drop d.length) with
      | some (sp, r) => opn ++ sp ++ cls ++ replDelim d opn cls fuel r
      | none => c :: replDelim d opn cls fuel rest
    else c :: replDelim d opn cls fuel rest

/-- `content.replace(/\n\n/g, "</p><p>")`: left-to-right non-overlapping
replacement of double newlines. -/
def paraRepl : List Char → List Char
  | [] => []
  | [c] => [c]
  | c1 :: c2 :: rest =>
    if c1 = '\n' ∧ c2 = '\n' then
      '<' :: '/' :: 'p' :: '>' :: '<' :: 'p' :: '>' :: paraRepl rest
    else c1 :: paraRepl (c2 :: rest)

/-- `content.replace(/\n/g, "<br>")`. -/
def brRepl : List Char → List Char
  | [] => []
  | c :: rest =>
    if c = '\n' then '<' :: 'b' :: 'r' :: '>' :: brRepl rest
    else c :: brRepl rest

/-- `String.prototype.includes`: whether `p` occurs as a contiguous
substring. -/
def containsSub (p : List Char) : List Char → Bool
  | [] => p.isEmpty
  | c :: t => p.isPrefixOf (c :: t) || containsSub p t

/-- The three span substitutions of `formatMessage`
(src/static/script.js lines 203-205), in source order: bold, italic,
code. -/
def spanStage (content : String) : List Char :=
  let c0 := content.data
  let c1 := replDelim ['*', '*'] ("<strong>".data) ("</strong>".data) c0.length c0
  let c2 := replDelim ['*'] ("<em>".data) ("</em>".data) c1.length c1
  replDelim (("`").data) ("<code>".data) ("</code>".data) c2.length c2

/-- The two newline substitutions of `formatMessage` (lines 208-209):
double newline to paragraph break, then remaining newlines to line
breaks. -/
def breakStage (s : List Char) : List Char := brRepl (paraRepl s)

/-- `formatMessage` (src/static/script.js lines 201-217): span and
newline substitutions, then wrapping in a paragraph element when the
result contains a line or paragraph break tag. -/
def formatMessage (content : String) : String :=
  if containsSub ("<br>".data) (breakStage (spanStage content)) ||
     containsSub ("</p>".data) (breakStage (spanStage content)) then
    String.mk (("<p>".data) ++ breakStage (spanStage content) ++ ("</p>".data))
  else String.mk (breakStage (spanStage content))

theorem tid_le_fold (l : List Rendered) (e : Rendered) (he : e ∈ l) :
    tid e ≤ l.foldr (fun x m => max (tid x) m) 0 := by
  induction l with
  | nil => cases he
  | cons a t ih =>
    rcases List.mem_cons.mp he with h | h
    · subst h; exact le_max_left _ _
    · exact le_trans (ih h) (le_max_right _ _)

theorem tid_lt_fresh (l : List Rendered) (e : Rendered) (he : e ∈ l) :
    tid e < freshTypingId l :=
  Nat.lt_succ_of_le (tid_le_fold l e he)

/-- Removing the freshly added typing indicator restores the container. -/
theorem removeTypingElem_fresh (l : List Rendered) :
    removeTypingElem (freshTypingId l) (l ++ [Rendered.typing (freshTypingId l)]) = l := by
  unfold removeTypingElem
  rw [List.filter_append]
  have h1 : l.filter (fun e => !(isTypingElem e && tid e == freshTypingId l)) = l := by
    apply List.filter_eq_self.mpr
    intro a ha
    have := tid_lt_fresh l a ha
    simp [Nat.ne_of_lt this]
  have h2 : [Rendered.typing (freshTypingId l)].filter
      (fun e => !(isTypingElem e && tid e == freshTypingId l)) = [] := by
    simp [isTypingElem, tid]
  rw [h1, h2, List.append_nil]

theorem removeTypingElem_fresh_cons (l : List Rendered) (u : Rendered) :
    removeTypingElem (freshTypingId (l ++ [u]))
      (l ++ [u, Rendered.typing (freshTypingId (l ++ [u]))]) = l ++ [u] := by
  have h := removeTypingElem_fresh (l ++ [u])
  simpa using h

/-- Closed form of a settled `sendMessage` call that passes the guard. -/
theorem sendMessage_run (st : ClientState) (now : String) (o : ChatOutcome)
    (h1 : ¬ jsTrim st.inputValue = "") (h2 : st.isTyping = false) :
    (sendMessage st now o).1 =
      { st with
        inputValue := ""
        isTyping := false
        transcript := st.transcript ++
          [Rendered.msg "user" (jsTrim st.inputValue) false, agentReply o]
        conversationHistory := st.conversationHistory ++
          historyDelta (jsTrim st.inputValue) now o } := by
  unfold sendMessage
  rw [if_neg (by simp [h1, h2])]
  cases o with
  | ok d =>
    by_cases hs : d.status = "success" <;>
      simp [hs, agentReply, historyDelta, removeTypingElem_fresh_cons]
  | netError =>
    simp [agentReply, historyDelta, removeTypingElem_fresh_cons]

/-- Claim C2: `sendMessage` invoked while a prior call is still outstanding
(the `isTyping` flag is set) is a no-op: the state (in particular the
rendered transcript and `conversationHistory`) is unchanged and no chat
request is issued. -/
theorem sendMessage_inflight_noop (st : ClientState) (now : String) (o : ChatOutcome)
    (h : st.isTyping = true) :
    (sendMessage st now o).1 = st ∧ issuedRequests (sendMessage st now o).2 = [] := by
  unfold sendMessage
  rw [if_pos (Or.inr h)]
  exact ⟨rfl, rfl⟩

theorem sendMessage_inflight_noop_witness :
    (sendMessage busySt "t" ChatOutcome.netError).1 = busySt ∧
      issuedRequests (sendMessage busySt "t" ChatOutcome.netError).2 = [] :=
  sendMessage_inflight_noop busySt "t" ChatOutcome.netError (by decide)

theorem agentReply_not_typing (o : ChatOutcome) : isTypingElem (agentReply o) = false := by
  cases o with
  | ok d => by_cases hs : d.status = "success" <;> simp [agentReply, hs, isTypingElem]
  | netError => rfl

/-- Claim C1: for input that is non-empty after trimming, with no send in
flight, a settled `sendMessage` call appends exactly one user message and
exactly one terminal agent-side message (normal reply on success,
error-flagged message on application or transport failure) to the rendered
transcript, and no typing placeholder remains after settlement. -/
theorem sendMessage_appends (st : ClientState) (now : String) (o : ChatOutcome)
    (h1 : ¬ jsTrim st.inputValue = "") (h2 : st.isTyping = false) :
    (sendMessage st now o).1.transcript =
      st.transcript ++ [Rendered.msg "user" (jsTrim st.inputValue) false, agentReply o] ∧
    isTypingElem (agentReply o) = false ∧
    ((∀ e ∈ st.transcript, isTypingElem e = false) →
      ∀ e ∈ (sendMessage st now o).1.transcript, isTypingElem e = false) := by
  have hrun := sendMessage_run st now o h1 h2
  refine ⟨by rw [hrun], agentReply_not_typing o, ?_⟩
  intro hfree e he
  rw [hrun] at he
  simp only [List.mem_append, List.mem_cons, List.mem_singleton] at he
  rcases he with h | h | h
  · exact hfree e h
  · subst h; rfl
  · rcases h with h | h
    · subst h; exact agentReply_not_typing o
    · cases h

theorem sendMessage_appends_witness :
    (sendMessage readySt "t" (ChatOutcome.ok ⟨"success", "hello", ""⟩)).1.transcript =
      readySt.transcript ++
        [Rendered.msg "user" (jsTrim readySt.inputValue) false,
         agentReply (ChatOutcome.ok ⟨"success", "hello", ""⟩)] ∧
    isTypingElem (agentReply (ChatOutcome.ok ⟨"success", "hello", ""⟩)) = false ∧
    ((∀ e ∈ readySt.transcript, isTypingElem e = false) →
      ∀ e ∈ (sendMessage readySt "t" (ChatOutcome.ok ⟨"success", "hello", ""⟩)).1.transcript,
        isTypingElem e = false) :=
  sendMessage_appends readySt "t" (ChatOutcome.ok ⟨"success", "hello", ""⟩)
    (by decide) (by decide)

/-- Claim C3: on every execution path of `sendMessage` that passes the
guard — success, application-level failure and transport-level failure —
the in-flight flag is cleared and the typing placeholder is removed, each
exactly once, and the call settles in a non-typing state. -/
theorem sendMessage_cleanup_once (st : ClientState) (now : String) (o : ChatOutcome)
    (h1 : ¬ jsTrim st.inputValue = "") (h2 : st.isTyping = false) :
    countRemoveTyping (sendMessage st now o).2 = 1 ∧
    countFlagClear (sendMessage st now o).2 = 1 ∧
    (sendMessage st now o).1.isTyping = false ∧
    ((∀ e ∈ st.transcript, isTypingElem e = false) →
      ∀ e ∈ (sendMessage st now o).1.transcript, isTypingElem e = false) := by
  have hrun := sendMessage_run st now o h1 h2
  refine ⟨?_, ?_, by rw [hrun], ?_⟩
  · unfold sendMessage
    rw [if_neg (by simp [h1, h2])]
    cases o with
    | ok d =>
      by_cases hs : d.status = "success" <;>
        simp [hs, countRemoveTyping, List.countP_cons, List.countP_nil, List.countP_append]
    | netError =>
      simp [countRemoveTyping, List.countP_cons, List.countP_nil, List.countP_append]
  · unfold sendMessage
    rw [if_neg (by simp [h1, h2])]
    cases o with
    | ok d =>
      by_cases hs : d.status = "success" <;>
        simp [hs, countFlagClear, List.countP_cons, List.countP_nil, List.countP_append]
    | netError =>
      simp [countFlagClear, List.countP_cons, List.countP_nil, List.countP_append]
  · intro hfree e he
    rw [hrun] at he
    simp only [List.mem_append, List.mem_cons, List.mem_singleton] at he
    rcases he with h | h | h
    · exact hfree e h
    · subst h; rfl
    · rcases h with h | h
      · subst h; exact agentReply_not_typing o
      · cases h

theorem sendMessage_cleanup_once_witness :
    countRemoveTyping (sendMessage readySt "t" ChatOutcome.netError).2 = 1 ∧
    countFlagClear (sendMessage readySt "t" ChatOutcome.netError).2 = 1 ∧
    (sendMessage readySt "t" ChatOutcome.netError).1.isTyping = false ∧
    ((∀ e ∈ readySt.transcript, isTypingElem e = false) →
      ∀ e ∈ (sendMessage readySt "t" ChatOutcome.netError).1.transcript,
        isTypingElem e = false) :=
  sendMessage_cleanup_once readySt "t" ChatOutcome.netError (by decide) (by decide)

/-- Claim C6: `checkSystemStatus` enables chat input iff the response
resolves with both readiness flags truthy (then the indicator goes online
and no toast is shown); on every other outcome it goes offline, disables
input and shows an error toast carrying the server-supplied reason, a
default message, or the connection-failure message. -/
theorem checkSystemStatus_gating (st : ClientState) (o : StatusOutcome) :
    ((checkSystemStatus st o).1.inputDisabled = false ↔ statusGood o = true) ∧
    (statusGood o = true →
      (checkSystemStatus st o).1.indicator = SysIndicator.online ∧
      (checkSystemStatus st o).2 = []) ∧
    (statusGood o = false →
      (checkSystemStatus st o).1.indicator = SysIndicator.offline ∧
      (checkSystemStatus st o).1.inputDisabled = true ∧
      (checkSystemStatus st o).2 = [UAct.toast ToastKind.error (statusFailMessage o)]) := by
  cases o with
  | ok d =>
    by_cases h : (truthyB d.rag_available && truthyB d.vertex_ai_initialized) = true
    · simp [checkSystemStatus, statusGood, statusFailMessage, h]
    · simp [checkSystemStatus, statusGood, statusFailMessage, h]
  | netError => simp [checkSystemStatus, statusGood, statusFailMessage]

theorem checkSystemStatus_gating_witness :
    (checkSystemStatus readySt (StatusOutcome.ok ⟨some true, some true, none⟩)).1.inputDisabled
      = false :=
  (checkSystemStatus_gating readySt (StatusOutcome.ok ⟨some true, some true, none⟩)).1.mpr
    (by decide)

/-- Counterexample to claim C4: after a failed status check the client is
offline with chat disabled and no send in flight, yet the suggestion entry
point still issues a chat request (`sendSuggestion` never checks the
system status or the disabled controls). -/
theorem suggestion_bypasses_status_gate_cex :
    (checkSystemStatus readySt StatusOutcome.netError).1.indicator = SysIndicator.offline ∧
    (checkSystemStatus readySt StatusOutcome.netError).1.inputDisabled = true ∧
    (checkSystemStatus readySt StatusOutcome.netError).1.isTyping = false ∧
    issuedOpt (triggerSend (checkSystemStatus readySt StatusOutcome.netError).1
      (Trigger.suggestion "hello") "t" (ChatOutcome.ok ⟨"success", "hi", ""⟩)) = ["hello"] := by
  decide

/-- Claim C4 (amended): typed input and the send button cannot reach
`sendMessage` while the input controls are disabled (which the status
check ties to non-online status), and no entry point — the suggestion
path included — issues a chat request while a send is in flight; the
suggestion entry point, however, is not gated by the system status. -/
theorem chat_gating_amended (st : ClientState) (now : String) (o : ChatOutcome) :
    (st.inputDisabled = true →
      triggerSend st Trigger.pressEnter now o = none ∧
      triggerSend st Trigger.clickSend now o = none) ∧
    (st.isTyping = true → ∀ t : Trigger, issuedOpt (triggerSend st t now o) = []) := by
  have hne : ∀ st' : ClientState, st'.isTyping = true →
      issuedRequests (sendMessage st' now o).2 = [] := by
    intro st' h'
    unfold sendMessage
    rw [if_pos (Or.inr h')]
    rfl
  constructor
  · intro h
    simp [triggerSend, h]
  · intro h t
    cases t with
    | pressEnter =>
      by_cases hd : st.inputDisabled = true
      · simp [triggerSend, hd, issuedOpt]
      · simp [triggerSend, hd, issuedOpt, hne st h]
    | clickSend =>
      by_cases hd : st.inputDisabled = true
      · simp [triggerSend, hd, issuedOpt]
      · simp [triggerSend, hd, issuedOpt, hne st h]
    | suggestion m =>
      simp [triggerSend, issuedOpt, hne { st with inputValue := m } (by simp [h])]

theorem chat_gating_amended_witness :
    (triggerSend offBusySt Trigger.pressEnter "t" ChatOutcome.netError = none ∧
     triggerSend offBusySt Trigger.clickSend "t" ChatOutcome.netError = none) ∧
    issuedOpt (triggerSend offBusySt (Trigger.suggestion "x") "t" ChatOutcome.netError) = [] :=
  ⟨(chat_gating_amended offBusySt "t" ChatOutcome.netError).1 (by decide),
   (chat_gating_amended offBusySt "t" ChatOutcome.netError).2 (by decide)
     (Trigger.suggestion "x")⟩

/-- Claim C7: `clearConversation` with confirmation and a `"success"`
backend response leaves exactly the first rendered message (the welcome
message), empties `conversationHistory`, and emits a success toast. -/
theorem clearConversation_success_resets (st : ClientState) (w : Rendered)
    (rest : List Rendered) (h : st.transcript = w :: rest) :
    (clearConversation st true (ClearOutcome.ok ⟨"success"⟩)).1.transcript = [w] ∧
    (clearConversation st true (ClearOutcome.ok ⟨"success"⟩)).1.conversationHistory = [] ∧
    (clearConversation st true (ClearOutcome.ok ⟨"success"⟩)).2 =
      [UAct.toast ToastKind.success "Conversation cleared"] := by
  unfold clearConversation
  simp [h]

theorem clearConversation_success_resets_witness :
    (clearConversation readySt true (ClearOutcome.ok ⟨"success"⟩)).1.transcript =
      [Rendered.msg "agent" "welcome" false] ∧
    (clearConversation readySt true (ClearOutcome.ok ⟨"success"⟩)).1.conversationHistory = [] ∧
    (clearConversation readySt true (ClearOutcome.ok ⟨"success"⟩)).2 =
      [UAct.toast ToastKind.success "Conversation cleared"] :=
  clearConversation_success_resets readySt (Rendered.msg "agent" "welcome" false) [] (by decide)

/-- Counterexample to claim C5: when the clear response resolves with a
non-success status, the state is unchanged but no notification of any kind
is emitted — the claimed error notification does not happen. -/
theorem clearConversation_app_failure_silent_cex :
    (clearConversation readySt true (ClearOutcome.ok ⟨"error"⟩)).1 = readySt ∧
    (clearConversation readySt true (ClearOutcome.ok ⟨"error"⟩)).2 = [] ∧
    ("error" : String) ≠ "success" := by
  decide

/-- Claim C5 (amended): every failing confirmed `clearConversation` call
leaves the client state unchanged (no partial clear); on a thrown
transport error an error notification is emitted, while on a response with
non-success status the call is silent — no notification is emitted. -/
theorem clearConversation_failure_amended (st : ClientState) (d : ClearData)
    (h : ¬ d.status = "success") :
    clearConversation st true (ClearOutcome.ok d) = (st, []) ∧
    clearConversation st true ClearOutcome.netError =
      (st, [UAct.toast ToastKind.error "Failed to clear conversation"]) := by
  unfold clearConversation
  simp [h]

theorem clearConversation_failure_amended_witness :
    clearConversation busySt true (ClearOutcome.ok ⟨"error"⟩) = (busySt, []) ∧
    clearConversation busySt true ClearOutcome.netError =
      (busySt, [UAct.toast ToastKind.error "Failed to clear conversation"]) :=
  clearConversation_failure_amended busySt ⟨"error"⟩ (by decide)

/-- Claim C10: when the startup history fetch throws, resolves with a
non-success status, or returns an empty history, `loadConversationHistory`
is silent: the state (history and transcript) is unchanged and no action —
in particular no notification — is performed. -/
theorem loadConversationHistory_silent_on_failure (st : ClientState) (o : LoadOutcome)
    (h : o = LoadOutcome.netError ∨
      ∃ d, o = LoadOutcome.ok d ∧ (¬ d.status = "success" ∨ d.history = [])) :
    loadConversationHistory st o = (st, []) := by
  rcases h with h | ⟨d, rfl, hd⟩
  · subst h; rfl
  · rcases hd with hd | hd
    · simp [loadConversationHistory, hd]
    · simp [loadConversationHistory, hd]

theorem loadConversationHistory_silent_witness :
    loadConversationHistory readySt (LoadOutcome.ok ⟨"error", []⟩) = (readySt, []) :=
  loadConversationHistory_silent_on_failure readySt (LoadOutcome.ok ⟨"error", []⟩)
    (Or.inr ⟨⟨"error", []⟩, rfl, Or.inl (by decide)⟩)

/-- Counterexample to claim C9: a toast shown at 2000 while the toast shown
at 0 is still visible is dismissed at 5000 — when the first toast's
uncancelled timer fires — after only 3000 ms, not the full 5-second
delay. -/
theorem toast_replaced_cut_short_cex :
    toastVisibleAt [0, 2000] 4999 = true ∧
    toastVisibleAt [0, 2000] 5000 = false ∧
    5000 < 2000 + toastDelay := by
  decide

theorem latestLE_single (a t : Nat) :
    latestLE [a] t = if a ≤ t then some a else none := by
  by_cases h : a ≤ t <;> simp [latestLE, h]

theorem latestLE_pair (a b t : Nat) :
    latestLE [a, b] t =
      if a ≤ t then (if b ≤ t then some (max a b) else some a)
      else (if b ≤ t then some b else none) := by
  by_cases ha : a ≤ t <;> by_cases hb : b ≤ t <;> simp [latestLE, ha, hb]

/-- Claim C9 (amended): every `showToast` call schedules dismissal 5000 ms
later; a toast shown while no earlier timer is pending is visible for
exactly the full delay; but because a pending timer is never cancelled, a
toast shown while an earlier toast's timer is pending replaces it on
screen and is then dismissed when the earlier timer fires — before its own
5-second delay elapses. -/
theorem toast_timing_amended :
    (∀ s t, s ≤ t → t < s + toastDelay → toastVisibleAt [s] t = true) ∧
    (∀ s t, s + toastDelay ≤ t → toastVisibleAt [s] t = false) ∧
    (∀ s1 s2 t, s1 < s2 → s2 < s1 + toastDelay → s2 ≤ t → t < s1 + toastDelay →
      toastVisibleAt [s1, s2] t = true) ∧
    (∀ s1 s2 t, s1 < s2 → s2 < s1 + toastDelay → s1 + toastDelay ≤ t →
      toastVisibleAt [s1, s2] t = false) := by
  refine ⟨?_, ?_, ?_, ?_⟩
  · intro s t h1 h2
    have hf : ¬ s + toastDelay ≤ t := by omega
    simp [toastVisibleAt, latestLE_single, h1, hf]
  · intro s t h
    have hs : s ≤ t := by omega
    simp [toastVisibleAt, latestLE_single, h, hs]
  · intro s1 s2 t h1 h2 h3 h4
    have ha : s1 ≤ t := by omega
    have hb : s2 ≤ t := by omega
    have hfa : ¬ s1 + toastDelay ≤ t := by omega
    have hfb : ¬ s2 + toastDelay ≤ t := by omega
    simp [toastVisibleAt, latestLE_pair, ha, hb, hfa, hfb]
  · intro s1 s2 t h1 h2 h3
    have ha : s1 ≤ t := by omega
    have hb : s2 ≤ t := by omega
    by_cases hfb : s2 + toastDelay ≤ t
    · simp [toastVisibleAt, latestLE_pair, ha, hb, h3, hfb]
    · simp [toastVisibleAt, latestLE_pair, ha, hb, h3, hfb]
      omega

theorem toast_timing_amended_witness :
    toastVisibleAt [0] 4999 = true ∧ toastVisibleAt [0] 5000 = false ∧
    toastVisibleAt [10, 2000] 2000 = true ∧ toastVisibleAt [10, 2000] 5010 = false :=
  ⟨toast_timing_amended.1 0 4999 (by decide) (by decide),
   toast_timing_amended.2.1 0 5000 (by decide),
   toast_timing_amended.2.2.1 10 2000 2000 (by decide) (by decide) (by decide) (by decide),
   toast_timing_amended.2.2.2 10 2000 5010 (by decide) (by decide) (by decide)⟩

theorem isPrefixOf_exists (p : List Char) :
    ∀ s, p.isPrefixOf s = true ↔ ∃ v, s = p ++ v := by
  induction p with
  | nil => intro s; simp [List.isPrefixOf]
  | cons a as ih =>
    intro s
    cases s with
    | nil => simp [List.isPrefixOf]
    | cons b bs =>
      rw [show (a :: as).isPrefixOf (b :: bs) = (a == b && as.isPrefixOf bs) from rfl,
        Bool.and_eq_true, beq_iff_eq, ih bs]
      constructor
      · rintro ⟨h1, v, h2⟩
        subst h1; subst h2; exact ⟨v, rfl⟩
      · rintro ⟨v, h⟩
        injection h with h1 h2
        exact ⟨h1.symm, v, h2⟩

theorem containsSub_exists (p : List Char) :
    ∀ s, containsSub p s = true ↔ ∃ u v, s = u ++ p ++ v := by
  intro s
  induction s with
  | nil =>
    rw [show containsSub p [] = p.isEmpty from rfl, List.isEmpty_iff]
    constructor
    · rintro rfl; exact ⟨[], [], rfl⟩
    · rintro ⟨u, v, h⟩
      rcases List.append_eq_nil.mp h.symm with ⟨h1, h2⟩
      exact (List.append_eq_nil.mp h1).2
  | cons c t ih =>
    rw [show containsSub p (c :: t) = (p.isPrefixOf (c :: t) || containsSub p t) from rfl,
      Bool.or_eq_true, isPrefixOf_exists, ih]
    constructor
    · rintro (⟨v, h⟩ | ⟨u, v, h⟩)
      · exact ⟨[], v, by simpa using h⟩
      · exact ⟨c :: u, v, by rw [h]; rfl⟩
    · rintro ⟨u, v, h⟩
      cases u with
      | nil => exact Or.inl ⟨v, by simpa using h⟩
      | cons x u =>
        injection h with h1 h2
        exact Or.inr ⟨u, v, h2⟩

theorem containsSub_of_split (p u v s : List Char) (h : s = u ++ p ++ v) :
    containsSub p s = true :=
  (containsSub_exists p s).mpr ⟨u, v, h⟩

theorem containsSub_cons_of (p : List Char) (c : Char) (t : List Char)
    (h : containsSub p t = true) : containsSub p (c :: t) = true := by
  rw [show containsSub p (c :: t) = (p.isPrefixOf (c :: t) || containsSub p t) from rfl, h]
  simp

theorem brRepl_append (a b : List Char) : brRepl (a ++ b) = brRepl a ++ brRepl b := by
  induction a with
  | nil => rfl
  | cons c t ih =>
    by_cases h : c = '\n' <;> simp [brRepl, h, ih]

theorem brRepl_nlFree (p : List Char) (hp : '\n' ∉ p) : brRepl p = p := by
  induction p with
  | nil => rfl
  | cons c t ih =>
    have hc : ¬ c = '\n' := fun h => hp (h ▸ List.mem_cons_self c t)
    simp [brRepl, hc, ih (fun h => hp (List.mem_cons_of_mem c h))]

theorem brRepl_contains_br (s : List Char) (h : '\n' ∈ s) :
    containsSub ("<br>".data) (brRepl s) = true := by
  obtain ⟨u, v, rfl⟩ := List.append_of_mem h
  rw [brRepl_append]
  refine containsSub_of_split _ (brRepl u) (brRepl v) _ ?_
  rw [show brRepl ('\n' :: v) = "<br>".data ++ brRepl v from rfl]
  exact (List.append_assoc _ _ _).symm

theorem brRepl_preserves (p s : List Char) (hp : '\n' ∉ p)
    (h : containsSub p s = true) : containsSub p (brRepl s) = true := by
  obtain ⟨u, v, rfl⟩ := (containsSub_exists p _).mp h
  rw [brRepl_append, brRepl_append, brRepl_nlFree p hp]
  exact containsSub_of_split _ (brRepl u) (brRepl v) _ rfl

theorem paraRepl_nlFree (s : List Char) (h : '\n' ∉ s) : paraRepl s = s := by
  induction s using paraRepl.induct with
  | case1 => rfl
  | case2 c => rfl
  | case3 c1 c2 rest hc ih =>
    exact absurd (hc.1 ▸ List.mem_cons_self c1 (c2 :: rest)) h
  | case4 c1 c2 rest hc ih =>
    simp only [paraRepl, if_neg hc]
    rw [ih (fun hm => h (List.mem_cons_of_mem c1 hm))]

theorem paraRepl_nl (s : List Char) (h : '\n' ∈ s) :
    '\n' ∈ paraRepl s ∨ containsSub ("</p>".data) (paraRepl s) = true := by
  induction s using paraRepl.induct with
  | case1 => cases h
  | case2 c =>
    left
    simpa [paraRepl] using h
  | case3 c1 c2 rest hc ih =>
    right
    rw [show paraRepl (c1 :: c2 :: rest) =
      (if c1 = '\n' ∧ c2 = '\n' then
        '<' :: '/' :: 'p' :: '>' :: '<' :: 'p' :: '>' :: paraRepl rest
      else c1 :: paraRepl (c2 :: rest)) from rfl, if_pos hc]
    exact containsSub_of_split _ [] ('<' :: 'p' :: '>' :: paraRepl rest) _ rfl
  | case4 c1 c2 rest hc ih =>
    rw [show paraRepl (c1 :: c2 :: rest) =
      (if c1 = '\n' ∧ c2 = '\n' then
        '<' :: '/' :: 'p' :: '>' :: '<' :: 'p' :: '>' :: paraRepl rest
      else c1 :: paraRepl (c2 :: rest)) from rfl, if_neg hc]
    rcases List.mem_cons.mp h with h1 | h1
    · left; exact h1 ▸ List.mem_cons_self _ _
    · rcases ih h1 with h2 | h2
      · left; exact List.mem_cons_of_mem c1 h2
      · right
        exact containsSub_cons_of _ c1 _ h2

theorem containsSub_append_left (p a t : List Char) (h : containsSub p t = true) :
    containsSub p (a ++ t) = true := by
  induction a with
  | nil => exact h
  | cons x a ih => exact containsSub_cons_of _ x _ ih

theorem paraRepl_nlFree_append (a w : List Char) (ha : '\n' ∉ a) :
    paraRepl (a ++ w) = a ++ paraRepl w := by
  induction a with
  | nil => rfl
  | cons x a ih =>
    have hx : ¬ x = '\n' := fun h => ha (h ▸ List.mem_cons_self x a)
    have ha' : '\n' ∉ a := fun h => ha (List.mem_cons_of_mem x h)
    cases haw : a ++ w with
    | nil =>
      rcases List.append_eq_nil.mp haw with ⟨h1, h2⟩
      subst h1; subst h2
      rfl
    | cons y t =>
      rw [List.cons_append, haw,
        show paraRepl (x :: y :: t) =
          (if x = '\n' ∧ y = '\n' then
            '<' :: '/' :: 'p' :: '>' :: '<' :: 'p' :: '>' :: paraRepl t
          else x :: paraRepl (y :: t)) from rfl,
        if_neg (fun hc => hx hc.1), ← haw, ih ha']
      rfl

theorem paraRepl_preserves_aux (p : List Char) (hp : '\n' ∉ p) (hne : p ≠ []) :
    ∀ s : List Char, ∀ u v, s = u ++ p ++ v → containsSub p (paraRepl s) = true := by
  intro s
  induction s using paraRepl.induct with
  | case1 =>
    intro u v h
    rcases List.append_eq_nil.mp h.symm with ⟨h1, h2⟩
    exact absurd (List.append_eq_nil.mp h1).2 hne
  | case2 c =>
    intro u v h
    rw [show paraRepl [c] = [c] from rfl]
    exact containsSub_of_split p u v _ h
  | case3 c1 c2 rest hc ih =>
    intro u v h
    rw [show paraRepl (c1 :: c2 :: rest) =
      (if c1 = '\n' ∧ c2 = '\n' then
        '<' :: '/' :: 'p' :: '>' :: '<' :: 'p' :: '>' :: paraRepl rest
      else c1 :: paraRepl (c2 :: rest)) from rfl, if_pos hc]
    cases u with
    | nil =>
      cases p with
      | nil => exact absurd rfl hne
      | cons a q =>
        injection h with h1 h2
        apply absurd _ hp
        rw [← show c1 = a from h1, hc.1]
        exact List.mem_cons_self _ _
    | cons x u' =>
      cases u' with
      | nil =>
        injection h with h1 h2
        cases p with
        | nil => exact absurd rfl hne
        | cons b q =>
          injection h2 with h3 h4
          apply absurd _ hp
          rw [← show c2 = b from h3, hc.2]
          exact List.mem_cons_self _ _
      | cons y u'' =>
        injection h with h1 h2
        injection h2 with h3 h4
        rw [show ('<' :: '/' :: 'p' :: '>' :: '<' :: 'p' :: '>' :: paraRepl rest) =
          ['<', '/', 'p', '>', '<', 'p', '>'] ++ paraRepl rest from rfl]
        exact containsSub_append_left p _ _ (ih u'' v h4)
  | case4 c1 c2 rest hc ih =>
    intro u v h
    cases u with
    | nil =>
      rw [List.nil_append] at h
      rw [h, paraRepl_nlFree_append p v hp]
      exact containsSub_of_split p [] (paraRepl v) _ (by rw [List.nil_append])
    | cons x u' =>
      injection h with h1 h2
      rw [show paraRepl (c1 :: c2 :: rest) =
        (if c1 = '\n' ∧ c2 = '\n' then
          '<' :: '/' :: 'p' :: '>' :: '<' :: 'p' :: '>' :: paraRepl rest
        else c1 :: paraRepl (c2 :: rest)) from rfl, if_neg hc]
      exact containsSub_cons_of p c1 _ (ih u' v h2)

theorem paraRepl_preserves (p s : List Char) (hp : '\n' ∉ p) (hne : p ≠ [])
    (h : containsSub p s = true) : containsSub p (paraRepl s) = true := by
  obtain ⟨u, v, hs⟩ := (containsSub_exists p s).mp h
  exact paraRepl_preserves_aux p hp hne s u v hs

/-- Counterexample to claim C8: the input `"<br>"` contains no newline, so
the span substitutions apply no change and no paragraph or line break is
produced, yet the output is wrapped in a paragraph element — the
wrap-if-and-only-if-a-break-was-produced direction fails, because the code
tests the formatted text for the substrings `"<br>"`/`"</p>"`, which the
input may already contain. -/
theorem formatMessage_wrap_cex :
    formatMessage "<br>" = "<p><br></p>" ∧
    ¬ ('\n' ∈ ("<br>" : String).data) ∧
    spanStage "<br>" = ("<br>" : String).data := by
  decide

/-- Claim C8 (amended): `formatMessage` performs the span substitutions
(bold, italic, code), turns double newlines into paragraph breaks and
remaining newlines into line breaks, and wraps the result in a paragraph
element whenever the span-substituted content still contains a newline
(that is, whenever a break is produced); content whose span-substituted
form already contains the literal text `"<br>"` or `"</p>"` is also
wrapped, even though no break was produced; the result is left unwrapped
exactly when the span-substituted content has no newline and neither
literal.  The documented example formats as claimed. -/
theorem formatMessage_amended :
    (∀ content : String, '\n' ∈ spanStage content →
      formatMessage content =
        String.mk (("<p>".data) ++ breakStage (spanStage content) ++ ("</p>".data))) ∧
    (∀ content : String,
      containsSub ("<br>".data) (spanStage content) = true ∨
      containsSub ("</p>".data) (spanStage content) = true →
      formatMessage content =
        String.mk (("<p>".data) ++ breakStage (spanStage content) ++ ("</p>".data))) ∧
    (∀ content : String, '\n' ∉ spanStage content →
      containsSub ("<br>".data) (spanStage content) = false →
      containsSub ("</p>".data) (spanStage content) = false →
      formatMessage content = String.mk (spanStage content)) ∧
    formatMessage "**bold** and *italic* and `code`\n\nnext para" =
      "<p><strong>bold</strong> and <em>italic</em> and <code>code</code></p><p>next para</p>" := by
  refine ⟨?_, ?_, ?_, by decide⟩
  · intro c h
    have hcond : (containsSub ("<br>".data) (breakStage (spanStage c)) ||
        containsSub ("</p>".data) (breakStage (spanStage c))) = true := by
      rw [Bool.or_eq_true]
      rcases paraRepl_nl (spanStage c) h with h1 | h1
      · exact Or.inl (brRepl_contains_br _ h1)
      · exact Or.inr (brRepl_preserves _ _ (by decide) h1)
    unfold formatMessage
    rw [if_pos hcond]
  · intro c h
    have hcond : (containsSub ("<br>".data) (breakStage (spanStage c)) ||
        containsSub ("</p>".data) (breakStage (spanStage c))) = true := by
      rw [Bool.or_eq_true]
      rcases h with h1 | h1
      · exact Or.inl (brRepl_preserves _ _ (by decide)
          (paraRepl_preserves _ _ (by decide) (by decide) h1))
      · exact Or.inr (brRepl_preserves _ _ (by decide)
          (paraRepl_preserves _ _ (by decide) (by decide) h1))
    unfold formatMessage
    rw [if_pos hcond]
  · intro c h1 h2 h3
    have hb : breakStage (spanStage c) = spanStage c := by
      rw [breakStage, paraRepl_nlFree _ h1, brRepl_nlFree _ h1]
    have hcond : (containsSub ("<br>".data) (breakStage (spanStage c)) ||
        containsSub ("</p>".data) (breakStage (spanStage c))) = false := by
      rw [hb, h2, h3]
      rfl
    unfold formatMessage
    rw [if_neg (by simp [hcond]), hb]

theorem formatMessage_amended_witness :
    formatMessage "a\nb" =
      String.mk (("<p>".data) ++ breakStage (spanStage "a\nb") ++ ("</p>".data)) ∧
    formatMessage "x</p>y" =
      String.mk (("<p>".data) ++ breakStage (spanStage "x</p>y") ++ ("</p>".data)) ∧
    formatMessage "plain" = String.mk (spanStage "plain") :=
  ⟨formatMessage_amended.1 "a\nb" (by decide),
   formatMessage_amended.2.1 "x</p>y" (Or.inr (by decide)),
   formatMessage_amended.2.2.1 "plain" (by decide) (by decide) (by decide)⟩
